import Mathlib

/-!
Verification of the data-cleaning and aggregation core of the Streamlit
dashboard in `src/app.py` (health facilities in Chile).

The Python code is shallowly embedded: tables are lists of rows, pandas
series indexed by group keys are association lists `List (String × Nat)`,
machine text is `String`/`List Char`, byte strings are `List Nat`
(each entry < 256), and fallible operations return `Option`/`Except`.
Coordinates from the static `COMUNA_CENTROS` table are embedded as pairs
of integers scaled by 10^4 (every literal in the source has exactly four
decimal digits), since only lookup identity matters, never arithmetic.
-/

/-! ## Substring matching (Python `p in col`) -/

/-- `empiezaCon p s` is true when `p` is an initial segment of `s`
(the primitive underlying Python substring search). -/
def empiezaCon : List Char → List Char → Bool
  | [], _ => true
  | _ :: _, [] => false
  | a :: ps, b :: ss => a == b && empiezaCon ps ss

/-- `contiene p s` models Python's `p in s` on strings: `p` occurs as a
contiguous substring of `s` (the empty pattern always matches). -/
def contiene (p : List Char) : List Char → Bool
  | [] => p.isEmpty
  | b :: ss => empiezaCon p (b :: ss) || contiene p ss

/-! ## Schema resolver (`buscar_columna`, app.py lines 60-65) -/

/-- `coincide posibles col` holds when some candidate substring occurs in
the column name `col` — the inner loop of `buscar_columna`. -/
def coincide (posibles : List String) (col : String) : Bool :=
  posibles.any (fun p => contiene p.data col.data)

/-- `buscar_columna`, app.py lines 60-65: scan the table's columns in their
own order and return the first one containing any candidate substring;
`none` models Python's `None` sentinel. -/
def buscar_columna (columnas posibles : List String) : Option String :=
  columnas.find? (coincide posibles)

/-! ## Text repair (`arreglar_tildes`, app.py lines 67-71) -/

/-- Latin-1 encoding of a text, `texto.encode("latin-1")`: one byte per
character, failing (like Python's `UnicodeEncodeError`) when a character
is above U+00FF. -/
def latin1Bytes : List Char → Option (List Nat)
  | [] => some []
  | c :: resto =>
    if c.toNat ≤ 255 then (latin1Bytes resto).map (fun bs => c.toNat :: bs)
    else none

/-- A UTF-8 continuation byte (`0x80`-`0xBF`). -/
def esCont (b : Nat) : Bool := 128 ≤ b && b ≤ 191

/-- One scalar-value step of strict UTF-8 decoding: consume one well
formed one- to four-byte sequence from the front and return the decoded
code point with the remaining bytes, or `none` on any malformed front —
out-of-range lead or continuation bytes, overlong forms (lead `0xC0`,
`0xC1`, short `0xE0`/`0xF0` seconds) and surrogates (`0xED` with second
above `0x9F`) are rejected exactly as Python's strict decoder does. -/
def pasoUtf8 : List Nat → Option (Nat × List Nat)
  | [] => none
  | b :: r =>
    if b ≤ 127 then some (b, r)
    else if 194 ≤ b && b ≤ 223 then
      match r with
      | b1 :: r1 =>
        if esCont b1 then some ((b - 192) * 64 + (b1 - 128), r1) else none
      | [] => none
    else if 224 ≤ b && b ≤ 239 then
      match r with
      | b1 :: b2 :: r2 =>
        if (if b == 224 then 160 ≤ b1 && b1 ≤ 191
            else if b == 237 then 128 ≤ b1 && b1 ≤ 159
            else esCont b1) && esCont b2 then
          some ((b - 224) * 4096 + (b1 - 128) * 64 + (b2 - 128), r2)
        else none
      | _ => none
    else if 240 ≤ b && b ≤ 244 then
      match r with
      | b1 :: b2 :: b3 :: r3 =>
        if (if b == 240 then 144 ≤ b1 && b1 ≤ 191
            else if b == 244 then 128 ≤ b1 && b1 ≤ 143
            else esCont b1) && esCont b2 && esCont b3 then
          some ((b - 240) * 262144 + (b1 - 128) * 4096 + (b2 - 128) * 64
            + (b3 - 128), r3)
        else none
      | _ => none
    else none

/-- Decoding worker: one unit of fuel per decoded scalar. Every
successful step consumes at least one byte, so `bs.length` units always
suffice and the fuel-exhausted branch is unreachable from
`utf8Decode`. -/
def utf8DecodeAux : Nat → List Nat → Option (List Char)
  | _, [] => some []
  | 0, _ :: _ => none
  | f + 1, b :: r =>
    match pasoUtf8 (b :: r) with
    | none => none
    | some (cp, resto) =>
      (utf8DecodeAux f resto).map (fun cs => Char.ofNat cp :: cs)

/-- Strict UTF-8 decoding of a byte list, `bytes.decode("utf-8")`:
returns the decoded text, or `none` (the `UnicodeDecodeError` path) on
any malformed sequence. -/
def utf8Decode (bs : List Nat) : Option (List Char) :=
  utf8DecodeAux bs.length bs

/-- `arreglar_tildes`, app.py lines 67-71: try
`texto.encode("latin-1").decode("utf-8")`; on any failure of either step
return the original text unchanged. -/
def arreglar_tildes (texto : String) : String :=
  match latin1Bytes texto.data with
  | none => texto
  | some bs =>
    match utf8Decode bs with
    | none => texto
    | some cs => String.mk cs

/-! ## Key normalisation (`norm_key`, app.py lines 73-74) -/

/-- Python `str.lower()`, character by character (the inputs the script
lower-cases are matched against ASCII-lowercase tables). -/
def aMinusculas (s : String) : String := String.mk (s.data.map Char.toLower)

/-- Python `str.strip()`: drop leading and trailing whitespace. -/
def recortar (s : String) : String :=
  String.mk (((s.data.dropWhile Char.isWhitespace).reverse.dropWhile
    Char.isWhitespace).reverse)

/-- `norm_key`, app.py lines 73-74: `str(s).strip().lower()`. -/
def norm_key (s : String) : String := aMinusculas (recortar s)

/-! ## Grouping and counting (pandas `groupby(col).size()`) -/

/-- Worker for `sinDuplicados`: drop every element already seen. -/
def sinDupAux {α : Type} [DecidableEq α] (vistos : List α) : List α → List α
  | [] => []
  | a :: resto =>
    if a ∈ vistos then sinDupAux vistos resto
    else a :: sinDupAux (a :: vistos) resto

/-- First-occurrence deduplication, pandas `drop_duplicates` order:
keep each element's first appearance. -/
def sinDuplicados {α : Type} [DecidableEq α] (l : List α) : List α :=
  sinDupAux [] l

/-- Python string comparison: lexicographic by code point. -/
def leLista : List Char → List Char → Bool
  | [], _ => true
  | _ :: _, [] => false
  | a :: as, b :: bs => if a = b then leLista as bs else decide (a < b)

/-- Group keys in ascending order: pandas `groupby` sorts its keys by
Python's lexicographic string order. The source's sort is embedded as a
stable sort (`List.insertionSort`). -/
def ordenClave (a b : String) : Prop := leLista a.data b.data = true

instance : DecidableRel ordenClave := fun a b =>
  show Decidable (leLista a.data b.data = true) from inferInstance

instance : IsTotal String ordenClave := by
  constructor
  intro a b
  show leLista a.data b.data = true ∨ leLista b.data a.data = true
  generalize a.data = x
  generalize b.data = y
  induction x generalizing y with
  | nil => exact Or.inl rfl
  | cons c cs ih =>
    cases y with
    | nil => exact Or.inr rfl
    | cons d ds =>
      by_cases hcd : c = d
      · subst hcd
        simpa [leLista] using ih ds
      · rcases lt_or_gt_of_ne hcd with h | h
        · exact Or.inl (by simp [leLista, hcd, h])
        · exact Or.inr (by simp [leLista, Ne.symm hcd, h])

instance : IsTrans String ordenClave := by
  constructor
  intro a b c h1 h2
  show leLista a.data c.data = true
  rw [ordenClave] at h1 h2
  revert h1 h2
  generalize a.data = x
  generalize b.data = y
  generalize c.data = z
  induction x generalizing y z with
  | nil => intro _ _; rfl
  | cons p ps ih =>
    intro h1 h2
    cases y with
    | nil => simp [leLista] at h1
    | cons q qs =>
      cases z with
      | nil => simp [leLista] at h2
      | cons r rs =>
        simp only [leLista] at h1 h2 ⊢
        by_cases hpq : p = q
        · subst hpq
          by_cases hqr : p = r
          · subst hqr
            simp only [if_pos rfl] at h1 h2 ⊢
            exact ih qs rs (by simpa using h1) (by simpa using h2)
          · simp only [if_pos rfl] at h1
            simpa [hqr] using h2
        · by_cases hqr : q = r
          · subst hqr
            simpa [hpq] using h1
          · simp only [if_neg hpq, if_neg hqr, decide_eq_true_eq] at h1 h2
            have hpr : p < r := lt_trans h1 h2
            simp [ne_of_lt hpr, hpr]

/-- `.sort_values(ascending=False)` on counts: count descending. The
source's sort is embedded as a stable sort, matching pandas' tie
behaviour on the grouped table. -/
def ordenDesc (a b : String × Nat) : Prop := b.2 ≤ a.2

instance : DecidableRel ordenDesc := fun a b =>
  show Decidable (b.2 ≤ a.2) from inferInstance

instance : IsTotal (String × Nat) ordenDesc := ⟨fun a b => le_total b.2 a.2⟩

instance : IsTrans (String × Nat) ordenDesc := ⟨fun _ _ _ h1 h2 => le_trans h2 h1⟩

/-- `df.groupby(col).size()`, as an association list: one entry per
distinct key, keys in ascending (lexicographic) order — pandas `groupby`
sorts group keys — each paired with the number of rows carrying it. -/
def grupos (claves : List String) : List (String × Nat) :=
  ((sinDuplicados claves).insertionSort ordenClave).map
    (fun k => (k, claves.count k))

/-- `groupby(col).size().sort_values(ascending=False)`, app.py lines
177-182 and 256-261: the grouped counts arranged in count-descending
order. The source's sort uses the default `kind='quicksort'`, which
pandas documents as not stable, so the program fixes no particular
order among groups with equal counts; an executable embedding must pick
a deterministic order and this one uses a stable sort. Theorems about
this definition therefore assert only what every correct descending
sort shares — a permutation of the grouped counts with non-increasing
counts. The embedded tie order is additionally consulted only on a
two-group table (the counterexample below), where it coincides with the
program: on such tiny arrays numpy's quicksort is an insertion sort and
pandas' descending argsort reverses the reversed input, both stable. -/
def conteo_rankeado (claves : List String) : List (String × Nat) :=
  (grupos claves).insertionSort ordenDesc

/-- The ranked aggregation as claim C2 words it: count the groups in
the order they are first encountered in the record set and stably sort
by count descending, so that equal counts keep first-encountered order.
Stated only to be compared against `conteo_rankeado`, which is what the
code computes. -/
def conteo_rankeado_segun_spec (claves : List String) : List (String × Nat) :=
  ((sinDuplicados claves).map (fun k => (k, claves.count k))).insertionSort ordenDesc

/-- `conteo_tipo`, app.py lines 177-183: ranked counts of facility-type
values in the filtered record set. -/
def conteo_tipo (claves : List String) : List (String × Nat) :=
  conteo_rankeado claves

/-- `conteo_comuna`, app.py lines 256-262: ranked commune counts limited
to the first `topn` rows (`.head(top_n_comunas)`). -/
def conteo_comuna (claves : List String) (topn : Nat) : List (String × Nat) :=
  (conteo_rankeado claves).take topn

/-- `conteo_nacional`, app.py lines 137-143:
`groupby(region).size().reindex(regiones_ordenadas).fillna(0)` — one row
per entry of the ordering, carrying that region's record count, `0`
(from `fillna`) when the region has no records; group keys outside the
ordering are dropped by `reindex`. -/
def conteo_nacional (claves orden : List String) : List (String × Nat) :=
  orden.map (fun r => (r, claves.count r))

/-! ## Region ordering (`regiones_ordenadas`, app.py lines 95-100) -/

/-- `.sort_values(col_region_cod)`: ascending region code. -/
def ordenPorCodigo (p q : Nat × String) : Prop := p.1 ≤ q.1

instance : DecidableRel ordenPorCodigo := fun p q =>
  show Decidable (p.1 ≤ q.1) from inferInstance

instance : IsTotal (Nat × String) ordenPorCodigo := ⟨fun p q => le_total p.1 q.1⟩

instance : IsTrans (Nat × String) ordenPorCodigo := ⟨fun _ _ _ h1 h2 => le_trans h1 h2⟩

/-- The deduplicated `(region code, region name)` pairs sorted by code:
`df[[cod, nom]].drop_duplicates().sort_values(cod)`. Region codes are the
numeric column pandas parses, hence `Nat`. -/
def regiones_ordenadas_pares (filas : List (Nat × String)) : List (Nat × String) :=
  (sinDuplicados filas).insertionSort ordenPorCodigo

/-- `regiones_ordenadas`, app.py lines 95-100: the region-name column of
the code-sorted deduplicated pairs (`[col_region_nom].tolist()`). -/
def regiones_ordenadas (filas : List (Nat × String)) : List String :=
  (regiones_ordenadas_pares filas).map Prod.snd

/-! ## Static commune geocoder (app.py lines 213-300) -/

/-- `COMUNA_CENTROS`, app.py lines 213-254, coordinates scaled by 10^4
(all source literals have exactly four decimals). -/
def COMUNA_CENTROS : List (String × Int × Int) :=
  [ ("santiago", (-334489, -706693))
  , ("puente alto", (-336117, -705758))
  , ("maipú", (-335092, -707570))
  , ("la florida", (-335531, -705594))
  , ("las condes", (-334080, -705660))
  , ("providencia", (-334315, -706094))
  , ("ñuñoa", (-334569, -705976))
  , ("san bernardo", (-335923, -707044))
  , ("pudahuel", (-334308, -707864))
  , ("arica", (-184783, -703126))
  , ("iquique", (-202141, -701525))
  , ("alto hospicio", (-202688, -701000))
  , ("antofagasta", (-236509, -703975))
  , ("calama", (-224560, -689237))
  , ("copiapó", (-273665, -703320))
  , ("la serena", (-299027, -712519))
  , ("coquimbo", (-299533, -713436))
  , ("valparaíso", (-330472, -716127))
  , ("viña del mar", (-330245, -715518))
  , ("quilpué", (-330475, -714436))
  , ("rancagua", (-341701, -707406))
  , ("talca", (-354264, -716554))
  , ("chillán", (-366063, -721034))
  , ("concepción", (-368270, -730498))
  , ("talcahuano", (-367175, -731169))
  , ("temuco", (-387359, -725904))
  , ("valdivia", (-398196, -732452))
  , ("osorno", (-405748, -731343))
  , ("puerto montt", (-414717, -729390))
  , ("coyhaique", (-455712, -720683))
  , ("punta arenas", (-531638, -709171)) ]

/-- The coordinate lookup performed in the map loop, app.py lines
269-271: the dictionary is consulted at `norm_key(comuna)`. -/
def centroDe (s : String) : Option (Int × Int) :=
  COMUNA_CENTROS.lookup (norm_key s)

/-- One row of `mapa_rows`, app.py lines 272-277. -/
structure FilaMapa where
  lat : Int
  lon : Int
  comuna : String
  cantidad : Nat
deriving DecidableEq, Repr

/-- The `for` loop over `conteo_comuna`, app.py lines 264-279: each top
commune is appended to `mapa_rows` when its normalised key is in
`COMUNA_CENTROS`, to `sin_coord` otherwise. -/
def procesar_mapa : List (String × Nat) → List FilaMapa × List String
  | [] => ([], [])
  | (comuna, cantidad) :: resto =>
    let par := procesar_mapa resto
    match centroDe comuna with
    | some c => (⟨c.1, c.2, comuna, cantidad⟩ :: par.1, par.2)
    | none => (par.1, comuna :: par.2)

/-- The mapped-row builder used to state the partition property: the row
appended for a top commune whose lookup succeeds. -/
def filaMapaDe (p : String × Nat) : FilaMapa :=
  match centroDe p.1 with
  | some c => ⟨c.1, c.2, p.1, p.2⟩
  | none => ⟨0, 0, p.1, p.2⟩

/-- The diagnostics display, app.py lines 295-300: the `st.info` body
lists `sin_coord[:20]` and appends the truncation note exactly when
`len(sin_coord) > 20`. Modelled as the displayed names plus the
indicator flag. -/
def aviso_sin_coord (sin : List String) : List String × Bool :=
  (sin.take 20, decide (sin.length > 20))

/-! ## Sidebar label round-trip (app.py lines 105-112, 121) -/

/-- Decimal rendering of a count, Python `str(n)` as produced by the
f-string `f"{r} ({n})"` at app.py line 106. -/
def strNat (n : Nat) : List Char :=
  if h : n < 10 then [Nat.digitChar n]
  else strNat (n / 10) ++ [Nat.digitChar (n % 10)]
termination_by n
decreasing_by
  exact Nat.div_lt_self (Nat.lt_of_lt_of_le (by decide) (Nat.le_of_not_lt h)) (by decide)

/-- The sidebar label `f"{r} ({conteo})"`, app.py line 106. -/
def etiqueta_region (r : String) (n : Nat) : String :=
  r ++ " (" ++ String.mk (strNat n) ++ ")"

/-- Index (from the left) of the last occurrence of `sep` in a character
list, `none` when `sep` does not occur: the occurrence Python's
`rsplit(sep, 1)` splits at. -/
def ultimaOcurrencia (sep : List Char) : List Char → Option Nat
  | [] => if sep.isEmpty then some 0 else none
  | ch :: resto =>
    match ultimaOcurrencia sep resto with
    | some i => some (i + 1)
    | none => if empiezaCon sep (ch :: resto) then some 0 else none

/-- `region_label.rsplit(" (", 1)[0]`, app.py line 112: everything before
the last occurrence of `" ("`, the whole label when it never occurs. -/
def region_sel_de (etiqueta : String) : String :=
  match ultimaOcurrencia (" (").data etiqueta.data with
  | some i => String.mk (etiqueta.data.take i)
  | none => etiqueta

/-! ## Macro-category classifier (spec §4.5; absent from src/app.py) -/

/-- The closed macro-category set of spec §4.5. -/
inductive Categoria where
  | hospital
  | cesfam
  | postaSapu
  | laboratorio
  | clinica
  | otro
deriving DecidableEq, Repr

/-- Modelled from the spec: the macro-category classifier of §4.5 is not
present in `src/app.py` (it lives in the repository's other script
variants, which are not included); per the spec it lowercases the
facility name and tests keyword groups in fixed priority order —
`hospital`, then `cesfam`/`centro de salud familiar`, then
`posta`/`sapu`, then `laboratorio`, then `clinica`/`policlinico` —
returning the first match and `otro` on no match. -/
def clasificar_categoria (nombre : String) : Categoria :=
  let s := aMinusculas nombre
  if contiene "hospital".data s.data then .hospital
  else if contiene "cesfam".data s.data || contiene "centro de salud familiar".data s.data then
    .cesfam
  else if contiene "posta".data s.data || contiene "sapu".data s.data then .postaSapu
  else if contiene "laboratorio".data s.data then .laboratorio
  else if contiene "clinica".data s.data || contiene "policlinico".data s.data then .clinica
  else .otro

/-! ## The pipeline prelude and its fatal gates (app.py lines 23-121) -/

/-- A CKAN resource: `format` and optional `url` fields. -/
structure Recurso where
  format : String
  url : Option String
deriving DecidableEq

/-- A CKAN dataset: its resource list. -/
structure Dataset where
  resources : List Recurso
deriving DecidableEq

/-- The catalog search response consumed at app.py lines 24-30. -/
structure RespCatalogo where
  success : Bool
  count : Nat
  results : List Dataset
deriving DecidableEq

/-- The loaded table: raw column names and rows as cell association
lists (column name to cell text). -/
structure Tabla where
  columnas : List String
  filas : List (List (String × String))
deriving DecidableEq

/-- Cell access `row[col]`. -/
def valorDe (fila : List (String × String)) (c : String) : String :=
  ((fila.find? (fun p => p.1 == c)).map Prod.snd).getD ""

/-- The resource loop of app.py lines 35-39: the `url` field of the
first resource whose `format` lower-cases to `"csv"`. -/
def csvUrlDe (d : Dataset) : Option String :=
  match d.resources.find? (fun r => aMinusculas r.format == "csv") with
  | none => none
  | some r => r.url

/-- The falsy test `if not csv_url` at app.py line 41: `None` and the
empty string both halt. -/
def urlFalsa : Option String → Bool
  | none => true
  | some u => u == ""

/-- The column-wise `apply(arreglar_tildes)` of app.py lines 89-90,
restricted to the three glosa columns, acting on one row. -/
def limpiarFila (cols3 : List String) (fila : List (String × String)) :
    List (String × String) :=
  fila.map (fun p => if p.1 ∈ cols3 then (p.1, arreglar_tildes p.2) else p)

/-- Everything the script renders downstream of the fatal gates:
the region ordering, the reindexed national counts, the ranked regional
type counts, the commune map data and the detail table. -/
structure Salida where
  regiones : List String
  conteoNacional : List (String × Nat)
  conteoTipo : List (String × Nat)
  mapa : List FilaMapa × List String
  detalle : List (String × String)
deriving Repr

/-- The script's linear control flow, app.py lines 23-309, as a
validate-then-proceed chain: each fatal gate (`st.stop()`) becomes
`Except.error` with the script's message, and only after every gate
passes are the aggregates, map and table of `Salida` produced. The
unchecked `results[0]` after a positive `count` is an unhandled
`IndexError` in Python; it also halts before any output and is embedded
as an error. -/
def pipeline (resp : RespCatalogo) (t : Tabla) (top_n_comunas : Nat)
    (region_sel : String) : Except String Salida :=
  if resp.success = false ∨ resp.count = 0 then
    Except.error "No se pudo encontrar el dataset en datos.gob.cl."
  else
    match resp.results.head? with
    | none => Except.error "IndexError: list index out of range"
    | some ds =>
      if urlFalsa (csvUrlDe ds) then
        Except.error "El dataset encontrado no tiene un recurso CSV."
      else
        let columnas := t.columnas.map (fun c => aMinusculas (recortar c))
        match buscar_columna columnas ["regioncodigo"],
            buscar_columna columnas ["regionglosa"],
            buscar_columna columnas ["comunaglosa"],
            buscar_columna columnas ["establecimientoglosa"] with
        | some colCod, some colNom, some colCom, some colEst =>
          let filas := t.filas.map (limpiarFila [colNom, colCom, colEst])
          let pares := filas.map (fun f => ((valorDe f colCod).toNat?.getD 0, valorDe f colNom))
          let orden := regiones_ordenadas pares
          let filasRegion := filas.filter (fun f => valorDe f colNom == region_sel)
          Except.ok
            { regiones := orden
            , conteoNacional := conteo_nacional (filas.map (fun f => valorDe f colNom)) orden
            , conteoTipo := conteo_tipo (filasRegion.map (fun f => valorDe f colEst))
            , mapa := procesar_mapa
                (conteo_comuna (filasRegion.map (fun f => valorDe f colCom)) top_n_comunas)
            , detalle := filasRegion.map (fun f => (valorDe f colCom, valorDe f colEst)) }
        | _, _, _, _ =>
          Except.error
            "No se pudieron identificar columnas principales (region/comuna/establecimiento)."

/-- Whether the run halted at a fatal gate (no `Salida` produced). -/
def esError : Except String Salida → Bool
  | Except.error _ => true
  | Except.ok _ => false

/-! ## Helper lemmas -/

/-- `List.find?` returns the first element satisfying the predicate:
everything before it in the list fails the predicate. -/
theorem find_primera {α : Type} (p : α → Bool) :
    ∀ (l : List α) (c : α), l.find? p = some c →
      c ∈ l ∧ p c = true ∧
        ∃ pre post, l = pre ++ c :: post ∧ ∀ x ∈ pre, p x = false := by
  intro l
  induction l with
  | nil => intro c h; simp [List.find?] at h
  | cons a t ih =>
    intro c h
    by_cases hp : p a = true
    · rw [List.find?_cons_of_pos _ hp] at h
      obtain rfl : a = c := Option.some.inj h
      exact ⟨List.mem_cons_self a t, hp, [], t, rfl, by simp⟩
    · rw [List.find?_cons_of_neg _ (by simpa using hp)] at h
      obtain ⟨hc, hpc, pre, post, heq, hpre⟩ := ih c h
      refine ⟨List.mem_cons_of_mem a hc, hpc, a :: pre, post, by rw [heq]; rfl, ?_⟩
      intro x hx
      rcases List.mem_cons.mp hx with rfl | hx'
      · simpa using hp
      · exact hpre x hx'

/-- Membership in the first-occurrence deduplication worker. -/
theorem mem_sinDupAux {α : Type} [DecidableEq α] :
    ∀ (l vistos : List α) (x : α),
      x ∈ sinDupAux vistos l ↔ x ∈ l ∧ x ∉ vistos := by
  intro l
  induction l with
  | nil => intro vistos x; simp [sinDupAux]
  | cons a t ih =>
    intro vistos x
    by_cases ha : a ∈ vistos
    · rw [sinDupAux, if_pos ha, ih]
      constructor
      · rintro ⟨hx, hnv⟩
        exact ⟨List.mem_cons_of_mem a hx, hnv⟩
      · rintro ⟨hx, hnv⟩
        rcases List.mem_cons.mp hx with rfl | hx'
        · exact absurd ha hnv
        · exact ⟨hx', hnv⟩
    · rw [sinDupAux, if_neg ha]
      constructor
      · intro hx
        rcases List.mem_cons.mp hx with rfl | hx'
        · exact ⟨List.mem_cons_self x t, ha⟩
        · obtain ⟨h1, h2⟩ := (ih (a :: vistos) x).mp hx'
          exact ⟨List.mem_cons_of_mem a h1,
            fun hv => h2 (List.mem_cons_of_mem a hv)⟩
      · rintro ⟨hx, hnv⟩
        rcases List.mem_cons.mp hx with rfl | hx'
        · exact List.mem_cons_self x _
        · by_cases hxa : x = a
          · subst hxa; exact List.mem_cons_self x _
          · exact List.mem_cons_of_mem a ((ih (a :: vistos) x).mpr
              ⟨hx', by simp [hxa, hnv]⟩)

/-- Membership is preserved by first-occurrence deduplication. -/
theorem mem_sinDuplicados {α : Type} [DecidableEq α] (l : List α) (x : α) :
    x ∈ sinDuplicados l ↔ x ∈ l := by
  rw [sinDuplicados, mem_sinDupAux]
  simp

/-- The deduplication worker never repeats an element nor emits one
already seen. -/
theorem nodup_sinDupAux {α : Type} [DecidableEq α] :
    ∀ (l vistos : List α), (sinDupAux vistos l).Nodup := by
  intro l
  induction l with
  | nil => intro vistos; simp [sinDupAux]
  | cons a t ih =>
    intro vistos
    by_cases ha : a ∈ vistos
    · rw [sinDupAux, if_pos ha]; exact ih vistos
    · rw [sinDupAux, if_neg ha]
      refine List.nodup_cons.mpr ⟨?_, ih (a :: vistos)⟩
      intro hmem
      exact ((mem_sinDupAux t (a :: vistos) a).mp hmem).2 (List.mem_cons_self a vistos)

/-- `sinDuplicados` produces a duplicate-free list. -/
theorem nodup_sinDuplicados {α : Type} [DecidableEq α] (l : List α) :
    (sinDuplicados l).Nodup :=
  nodup_sinDupAux l []

/-- First-occurrence deduplication is a permutation of Mathlib's
(last-occurrence) `dedup`. -/
theorem sinDuplicados_perm_dedup {α : Type} [DecidableEq α] (l : List α) :
    (sinDuplicados l).Perm l.dedup := by
  rw [List.perm_ext_iff_of_nodup (nodup_sinDuplicados l) l.nodup_dedup]
  intro x
  rw [mem_sinDuplicados, List.mem_dedup]

/-- Filtering a list by a predicate and by its negation splits its
length. -/
theorem longitud_filtros {α : Type} (p : α → Bool) :
    ∀ l : List α,
      (l.filter p).length + (l.filter (fun x => !(p x))).length = l.length := by
  intro l
  induction l with
  | nil => rfl
  | cons a t ih =>
    cases hp : p a
    · simp [List.filter_cons, hp]
      omega
    · simp [List.filter_cons, hp]
      omega

/-! ## Claim theorems -/

/-- C1: `buscar_columna` is a pure lookup. When it returns `some c`, the
column `c` is the first one, in the table's own column order, that
contains any candidate substring — every column before it matches no
candidate; it returns the sentinel `none` (not an exception) exactly when
no column contains any candidate. -/
theorem buscar_columna_primera_coincidencia :
    ∀ (columnas posibles : List String),
      (∀ c, buscar_columna columnas posibles = some c →
        c ∈ columnas ∧ coincide posibles c = true ∧
          ∃ pre post, columnas = pre ++ c :: post ∧
            ∀ c' ∈ pre, coincide posibles c' = false)
      ∧ (buscar_columna columnas posibles = none ↔
          ∀ c ∈ columnas, coincide posibles c = false) := by
  intro columnas posibles
  constructor
  · intro c h
    exact find_primera (coincide posibles) columnas c h
  · rw [buscar_columna, List.find?_eq_none]
    constructor
    · intro h c hc
      simpa using h c hc
    · intro h c hc
      simp [h c hc]

/-- Witness for C1 at a concrete schema: the matching column is found
with an all-miss column before it, and an all-miss schema yields the
sentinel. -/
theorem buscar_columna_primera_coincidencia_testigo :
    ("bregioncodigoc" ∈ ["ax", "bregioncodigoc"] ∧
        coincide ["regioncodigo"] "bregioncodigoc" = true ∧
        ∃ pre post,
          ["ax", "bregioncodigoc"] = pre ++ "bregioncodigoc" :: post ∧
            ∀ c' ∈ pre, coincide ["regioncodigo"] c' = false) ∧
      buscar_columna ["ax", "bx"] ["regioncodigo"] = none :=
  ⟨(buscar_columna_primera_coincidencia ["ax", "bregioncodigoc"]
        ["regioncodigo"]).1 "bregioncodigoc" (by decide),
    (buscar_columna_primera_coincidencia ["ax", "bx"] ["regioncodigo"]).2.mpr
      (by decide)⟩

/-- C4: the reindexed national aggregate has exactly the ordering's
entries in order, each entry carries the exact record count of its
region (hence `0` for regions absent from the record set), and the
grouped counts of the groupby aggregation sum to the total number of
records. -/
theorem conteo_nacional_reindexado :
    ∀ (claves orden : List String),
      ((conteo_nacional claves orden).map Prod.fst = orden)
      ∧ (∀ p ∈ conteo_nacional claves orden, p.2 = claves.count p.1)
      ∧ (∀ r ∈ orden, r ∉ claves → (r, 0) ∈ conteo_nacional claves orden)
      ∧ ((grupos claves).map Prod.snd).sum = claves.length := by
  intro claves orden
  refine ⟨?_, ?_, ?_, ?_⟩
  · simp only [conteo_nacional, List.map_map, Function.comp_def]
    exact List.map_id orden
  · intro p hp
    obtain ⟨r, _, rfl⟩ := List.mem_map.mp hp
    rfl
  · intro r hr hnot
    have h0 : claves.count r = 0 := List.count_eq_zero.mpr hnot
    have hm : (r, claves.count r) ∈ conteo_nacional claves orden :=
      List.mem_map_of_mem _ hr
    rwa [h0] at hm
  · have hperm : ((sinDuplicados claves).insertionSort ordenClave).Perm
        claves.dedup :=
      (List.perm_insertionSort _ _).trans (sinDuplicados_perm_dedup claves)
    have hmapa : (grupos claves).map Prod.snd =
        ((sinDuplicados claves).insertionSort ordenClave).map
          (fun k => claves.count k) := by
      simp [grupos, List.map_map]
    rw [hmapa, (hperm.map (fun k => claves.count k)).sum_eq]
    exact List.sum_map_count_dedup_eq_length claves

/-- Witness for C4 at a concrete record set and ordering (including a
region `"X"` absent from the records, which gets count `0`). -/
theorem conteo_nacional_reindexado_testigo :
    ((conteo_nacional ["RM", "RM", "Ta"] ["Ta", "RM", "X"]).map Prod.fst =
        ["Ta", "RM", "X"])
    ∧ (∀ p ∈ conteo_nacional ["RM", "RM", "Ta"] ["Ta", "RM", "X"],
        p.2 = ["RM", "RM", "Ta"].count p.1)
    ∧ (∀ r ∈ ["Ta", "RM", "X"], r ∉ ["RM", "RM", "Ta"] →
        (r, 0) ∈ conteo_nacional ["RM", "RM", "Ta"] ["Ta", "RM", "X"])
    ∧ ((grupos ["RM", "RM", "Ta"]).map Prod.snd).sum = 3 :=
  conteo_nacional_reindexado ["RM", "RM", "Ta"] ["Ta", "RM", "X"]

/-- C5 (spec-modelled): the macro-category classifier is a total
deterministic function into the closed six-element category set, and the
keyword group `{"hospital"}` has top priority: any name whose lowercase
form contains `"hospital"` classifies as `hospital`, no matter what
other keywords it contains. -/
theorem clasificar_categoria_contrato :
    (∀ nombre, clasificar_categoria nombre = Categoria.hospital ∨
        clasificar_categoria nombre = Categoria.cesfam ∨
        clasificar_categoria nombre = Categoria.postaSapu ∨
        clasificar_categoria nombre = Categoria.laboratorio ∨
        clasificar_categoria nombre = Categoria.clinica ∨
        clasificar_categoria nombre = Categoria.otro)
    ∧ (∀ nombre, contiene "hospital".data (aMinusculas nombre).data = true →
        clasificar_categoria nombre = Categoria.hospital)
    ∧ (∀ nombre, clasificar_categoria nombre = clasificar_categoria nombre) := by
  refine ⟨?_, ?_, fun _ => rfl⟩
  · intro nombre
    simp only [clasificar_categoria]
    split_ifs <;> simp
  · intro nombre h
    simp only [clasificar_categoria]
    rw [if_pos h]

/-- Witness for C5: a name containing both `"hospital"` and `"cesfam"`
classifies as `hospital` (priority order respected). -/
theorem clasificar_categoria_contrato_testigo :
    clasificar_categoria "Hospital CESFAM Los Andes" = Categoria.hospital :=
  clasificar_categoria_contrato.2.1 "Hospital CESFAM Los Andes" (by decide)

/-- C7: commune geocoding is case- and whitespace-insensitive —
`" Santiago "` and `"santiago"` normalise alike and resolve to the same
coordinates; the lookup only ever sees the normalised key, a name whose
lookup misses is put on the unresolved list instead of failing, and the
diagnostics display shows at most the first 20 unresolved names with the
truncation indicator exactly when more than 20 exist. -/
theorem geocodificacion_normalizada :
    (norm_key " Santiago " = norm_key "santiago" ∧
        centroDe " Santiago " = centroDe "santiago" ∧
        (centroDe "santiago").isSome = true)
    ∧ (∀ s t : String, norm_key s = norm_key t → centroDe s = centroDe t)
    ∧ (∀ nombre cantidad, centroDe nombre = none →
        procesar_mapa [(nombre, cantidad)] = ([], [nombre]))
    ∧ (∀ sin : List String,
        (aviso_sin_coord sin).1 = sin.take 20 ∧
        (aviso_sin_coord sin).1.length ≤ 20 ∧
        ((aviso_sin_coord sin).2 = true ↔ 20 < sin.length)) := by
  refine ⟨⟨by decide, by decide, by decide⟩, ?_, ?_, ?_⟩
  · intro s t h
    rw [centroDe, centroDe, h]
  · intro nombre cantidad h
    simp [procesar_mapa, h]
  · intro sin
    refine ⟨rfl, ?_, ?_⟩
    · simpa [aviso_sin_coord] using List.length_take_le 20 sin
    · simp [aviso_sin_coord]

/-- Witness for C7: an unknown commune lands on the unresolved list
without error, and 21 unresolved names trigger the truncation flag. -/
theorem geocodificacion_normalizada_testigo :
    procesar_mapa [("zzz", 3)] = ([], ["zzz"]) ∧
      (aviso_sin_coord (List.replicate 21 "x")).2 = true :=
  ⟨geocodificacion_normalizada.2.2.1 "zzz" 3 (by decide),
    (geocodificacion_normalizada.2.2.2 (List.replicate 21 "x")).2.2.mpr
      (by decide)⟩

/-- C10: the geocoding pass partitions the top-commune table — the
mapped rows are exactly the top communes whose lookup hits (with their
exact counts) and the unresolved list exactly those whose lookup
misses, so the two lengths sum to the number of top communes and every
mapped row's commune/count pair occurs in the table. -/
theorem procesar_mapa_particiona :
    ∀ comunas : List (String × Nat),
      ((procesar_mapa comunas).1 =
          (comunas.filter (fun p => (centroDe p.1).isSome)).map filaMapaDe)
      ∧ ((procesar_mapa comunas).2 =
          (comunas.filter (fun p => (centroDe p.1).isNone)).map Prod.fst)
      ∧ ((procesar_mapa comunas).1.length + (procesar_mapa comunas).2.length
          = comunas.length)
      ∧ (∀ fila ∈ (procesar_mapa comunas).1,
          (fila.comuna, fila.cantidad) ∈ comunas) := by
  intro comunas
  have h12 : (procesar_mapa comunas).1 =
      (comunas.filter (fun p => (centroDe p.1).isSome)).map filaMapaDe ∧
      (procesar_mapa comunas).2 =
        (comunas.filter (fun p => (centroDe p.1).isNone)).map Prod.fst := by
    induction comunas with
    | nil => exact ⟨rfl, rfl⟩
    | cons p resto ih =>
      obtain ⟨comuna, cantidad⟩ := p
      rcases hc : centroDe comuna with _ | c0
      · constructor
        · simp [procesar_mapa, hc, ih.1, List.filter_cons]
        · simp [procesar_mapa, hc, ih.2, List.filter_cons]
      · constructor
        · simp [procesar_mapa, hc, ih.1, List.filter_cons, filaMapaDe]
        · simp [procesar_mapa, hc, ih.2, List.filter_cons]
  refine ⟨h12.1, h12.2, ?_, ?_⟩
  · have hnot : ∀ o : Option (Int × Int), o.isNone = !o.isSome := by
      intro o
      cases o <;> rfl
    rw [h12.1, h12.2, List.length_map, List.length_map]
    simp only [hnot]
    exact longitud_filtros _ comunas
  · intro fila hf
    rw [h12.1] at hf
    obtain ⟨p, hp, rfl⟩ := List.mem_map.mp hf
    have hcampos : (filaMapaDe p).comuna = p.1 ∧ (filaMapaDe p).cantidad = p.2 := by
      rcases hc : centroDe p.1 with _ | c0 <;> simp [filaMapaDe, hc]
    rw [hcampos.1, hcampos.2, Prod.mk.eta]
    exact List.mem_of_mem_filter hp

/-- Witness for C10 at a concrete top-commune table with one hit and one
miss. -/
theorem procesar_mapa_particiona_testigo :
    ((procesar_mapa [("santiago", 2), ("zz", 1)]).1 =
        ([("santiago", 2), ("zz", 1)].filter
            (fun p => (centroDe p.1).isSome)).map filaMapaDe)
    ∧ ((procesar_mapa [("santiago", 2), ("zz", 1)]).2 =
        ([("santiago", 2), ("zz", 1)].filter
            (fun p => (centroDe p.1).isNone)).map Prod.fst)
    ∧ ((procesar_mapa [("santiago", 2), ("zz", 1)]).1.length +
          (procesar_mapa [("santiago", 2), ("zz", 1)]).2.length = 2)
    ∧ (∀ fila ∈ (procesar_mapa [("santiago", 2), ("zz", 1)]).1,
        (fila.comuna, fila.cantidad) ∈ [("santiago", 2), ("zz", 1)]) :=
  procesar_mapa_particiona [("santiago", 2), ("zz", 1)]

/-- C2 counterexample: on the record set `["b", "a"]` (two facility
types, first encountered `"b"` then `"a"`, each with count 1) the code's
ranked aggregation yields `[("a", 1), ("b", 1)]`, not the
first-encountered order `[("b", 1), ("a", 1)]` that the claim requires:
grouping sorts the keys alphabetically before the count sort, so
first-encountered order is already lost, and on this two-element series
the program deterministically returns the key-sorted order. -/
theorem conteo_rankeado_contraejemplo :
    conteo_tipo ["b", "a"] ≠ conteo_rankeado_segun_spec ["b", "a"]
    ∧ conteo_tipo ["b", "a"] = [("a", 1), ("b", 1)]
    ∧ conteo_rankeado_segun_spec ["b", "a"] = [("b", 1), ("a", 1)] :=
  ⟨by decide, by decide, by decide⟩

/-- C2 (amended): the ranked aggregation is a permutation of the
grouped counts arranged in non-increasing count order, and the commune
variant is its `topn`-entry front; the relative order of groups with
equal counts is not specified by the code (the default `sort_values`
kind is documented as not stable) and in particular is not
first-encountered order. -/
theorem conteo_rankeado_orden :
    ∀ claves : List String,
      ((conteo_tipo claves).Perm (grupos claves))
      ∧ ((conteo_tipo claves).Pairwise (fun a b => b.2 ≤ a.2))
      ∧ (∀ n, conteo_comuna claves n = (conteo_tipo claves).take n) := by
  intro claves
  have hsorted : (conteo_tipo claves).Pairwise ordenDesc :=
    List.sorted_insertionSort ordenDesc (grupos claves)
  exact ⟨List.perm_insertionSort ordenDesc (grupos claves),
    hsorted.imp (fun h => h), fun n => rfl⟩

/-- Witness for C2 (amended) at the counterexample's record set. -/
theorem conteo_rankeado_orden_testigo :
    ((conteo_tipo ["b", "a"]).Perm (grupos ["b", "a"]))
    ∧ ((conteo_tipo ["b", "a"]).Pairwise (fun a b => b.2 ≤ a.2))
    ∧ (∀ n, conteo_comuna ["b", "a"] n = (conteo_tipo ["b", "a"]).take n) :=
  conteo_rankeado_orden ["b", "a"]

/-- C3: under the invariant that region code and region name co-vary
1:1, the derived region ordering is a permutation of the distinct region
names, every pair of positions carries non-decreasing region codes (for
any codes those names have in the table), and the ordering does not
change when the table's rows are permuted. -/
theorem regiones_ordenadas_contrato :
    ∀ filas : List (Nat × String),
      (∀ p ∈ filas, ∀ q ∈ filas, (p.1 = q.1 ↔ p.2 = q.2)) →
      ((regiones_ordenadas filas).Perm (sinDuplicados (filas.map Prod.snd))
        ∧ (regiones_ordenadas filas).Pairwise
            (fun a b => ∀ ca cb, (ca, a) ∈ filas → (cb, b) ∈ filas → ca ≤ cb)
        ∧ ∀ filas', filas'.Perm filas →
            regiones_ordenadas filas' = regiones_ordenadas filas) := by
  intro filas inv
  have hPperm : (regiones_ordenadas_pares filas).Perm (sinDuplicados filas) :=
    List.perm_insertionSort _ _
  have hPmem : ∀ p ∈ regiones_ordenadas_pares filas, p ∈ filas :=
    fun p hp => (mem_sinDuplicados filas p).mp (hPperm.subset hp)
  have hPnd : (regiones_ordenadas_pares filas).Nodup :=
    hPperm.nodup_iff.mpr (nodup_sinDuplicados filas)
  have hPs : (regiones_ordenadas_pares filas).Pairwise ordenPorCodigo :=
    List.sorted_insertionSort _ _
  have hestricta : ∀ (g : List (Nat × String)),
      (∀ p ∈ g, p ∈ filas) → g.Nodup → g.Pairwise ordenPorCodigo →
      g.Pairwise (fun p q => p.1 < q.1) := by
    intro g hgmem hgnd hgs
    have hne : g.Pairwise (fun p q => p.1 ≠ q.1) := by
      refine hgnd.imp_of_mem ?_
      intro p q hp hq hpq he
      exact hpq (Prod.ext he ((inv p (hgmem p hp) q (hgmem q hq)).mp he))
    exact (hgs.and hne).imp (fun h => lt_of_le_of_ne h.1 h.2)
  refine ⟨?_, ?_, ?_⟩
  · have h1 : (regiones_ordenadas filas).Perm
        ((sinDuplicados filas).map Prod.snd) := hPperm.map _
    have h2 : ((sinDuplicados filas).map Prod.snd).Perm
        (sinDuplicados (filas.map Prod.snd)) := by
      rw [List.perm_ext_iff_of_nodup ?_ (nodup_sinDuplicados _)]
      · intro b
        rw [mem_sinDuplicados, List.mem_map, List.mem_map]
        constructor
        · rintro ⟨p, hp, rfl⟩
          exact ⟨p, (mem_sinDuplicados filas p).mp hp, rfl⟩
        · rintro ⟨p, hp, rfl⟩
          exact ⟨p, (mem_sinDuplicados filas p).mpr hp, rfl⟩
      · refine List.Nodup.map_on ?_ (nodup_sinDuplicados filas)
        intro p hp q hq he
        have hpf : p ∈ filas := (mem_sinDuplicados filas p).mp hp
        have hqf : q ∈ filas := (mem_sinDuplicados filas q).mp hq
        exact Prod.ext ((inv p hpf q hqf).mpr he) he
    exact h1.trans h2
  · rw [regiones_ordenadas, List.pairwise_map]
    refine hPs.imp_of_mem ?_
    intro p q hp hq hle ca cb hca hcb
    have hcap : ca = p.1 :=
      (inv (ca, p.2) hca p (hPmem p hp)).mpr rfl
    have hcbq : cb = q.1 :=
      (inv (cb, q.2) hcb q (hPmem q hq)).mpr rfl
    rw [hcap, hcbq]
    exact hle
  · intro filas' hperm'
    have hdupperm : (sinDuplicados filas').Perm (sinDuplicados filas) := by
      rw [List.perm_ext_iff_of_nodup (nodup_sinDuplicados _)
        (nodup_sinDuplicados _)]
      intro p
      rw [mem_sinDuplicados, mem_sinDuplicados]
      exact hperm'.mem_iff
    have hPP : (regiones_ordenadas_pares filas').Perm
        (regiones_ordenadas_pares filas) :=
      ((List.perm_insertionSort _ _).trans hdupperm).trans hPperm.symm
    have hmem' : ∀ p ∈ regiones_ordenadas_pares filas', p ∈ filas :=
      fun p hp => hPmem p (hPP.subset hp)
    have hs' : (regiones_ordenadas_pares filas').Pairwise
        (fun p q => p.1 < q.1) :=
      hestricta _ hmem' (hPP.nodup_iff.mpr hPnd)
        (List.sorted_insertionSort _ _)
    have hs : (regiones_ordenadas_pares filas).Pairwise
        (fun p q => p.1 < q.1) :=
      hestricta _ hPmem hPnd hPs
    haveI : IsAntisymm (Nat × String) (fun p q => p.1 < q.1) :=
      ⟨fun a b h1 h2 => absurd (lt_trans h1 h2) (lt_irrefl _)⟩
    have heq : regiones_ordenadas_pares filas' = regiones_ordenadas_pares filas :=
      List.eq_of_perm_of_sorted hPP hs' hs
    rw [regiones_ordenadas, regiones_ordenadas, heq]

/-- Witness for C3 at a concrete table (duplicate RM rows, codes 13 and
1) satisfying the 1:1 invariant. -/
theorem regiones_ordenadas_contrato_testigo :
    ((regiones_ordenadas [(13, "RM"), (13, "RM"), (1, "Ta")]).Perm
        (sinDuplicados ([(13, "RM"), (13, "RM"), (1, "Ta")].map Prod.snd))
      ∧ (regiones_ordenadas [(13, "RM"), (13, "RM"), (1, "Ta")]).Pairwise
          (fun a b => ∀ ca cb, (ca, a) ∈ [(13, "RM"), (13, "RM"), (1, "Ta")] →
            (cb, b) ∈ [(13, "RM"), (13, "RM"), (1, "Ta")] → ca ≤ cb)
      ∧ ∀ filas', filas'.Perm [(13, "RM"), (13, "RM"), (1, "Ta")] →
          regiones_ordenadas filas' =
            regiones_ordenadas [(13, "RM"), (13, "RM"), (1, "Ta")]) :=
  regiones_ordenadas_contrato [(13, "RM"), (13, "RM"), (1, "Ta")] (by decide)

/-- Every character of `strNat n` is a decimal digit character. -/
theorem strNat_digitos :
    ∀ n : Nat, ∀ c ∈ strNat n, ∃ d, d < 10 ∧ c = Nat.digitChar d := by
  intro n
  induction n using Nat.strong_induction_on with
  | _ n ih =>
    intro c hc
    by_cases h : n < 10
    · rw [strNat, dif_pos h] at hc
      exact ⟨n, h, by simpa using hc⟩
    · rw [strNat, dif_neg h] at hc
      rcases List.mem_append.mp hc with h1 | h2
      · exact ih (n / 10) (Nat.div_lt_self (by omega) (by decide)) c h1
      · exact ⟨n % 10, Nat.mod_lt n (by decide), by simpa using h2⟩

/-- Digit characters are never the space character. -/
theorem digitChar_sin_espacio : ∀ d, d < 10 → Nat.digitChar d ≠ ' ' := by decide

/-- The decimal rendering of a count contains no space. -/
theorem strNat_sin_espacio : ∀ n : Nat, ∀ c ∈ strNat n, c ≠ ' ' := by
  intro n c hc
  obtain ⟨d, hd, rfl⟩ := strNat_digitos n c hc
  exact digitChar_sin_espacio d hd

/-- One unfolding step of `ultimaOcurrencia` on a nonempty text. -/
theorem ultima_cons (sep : List Char) (ch : Char) (l : List Char) :
    ultimaOcurrencia sep (ch :: l) =
      match ultimaOcurrencia sep l with
      | some i => some (i + 1)
      | none => if empiezaCon sep (ch :: l) then some 0 else none := rfl

/-- Last-occurrence search shifts over a prefix when the suffix has an
occurrence. -/
theorem ultima_append :
    ∀ (s t sep : List Char) (i : Nat), ultimaOcurrencia sep t = some i →
      ultimaOcurrencia sep (s ++ t) = some (s.length + i) := by
  intro s
  induction s with
  | nil =>
    intro t sep i h
    simpa using h
  | cons ch s' ih =>
    intro t sep i h
    have h' := ih t sep i h
    rw [List.cons_append, ultima_cons, h']
    show some (s'.length + i + 1) = some ((ch :: s').length + i)
    rw [List.length_cons]
    congr 1
    omega

/-- A text with no space character contains no occurrence of `" ("`. -/
theorem ultima_sin_espacio :
    ∀ l : List Char, (∀ c ∈ l, c ≠ ' ') →
      ultimaOcurrencia (" (").data l = none := by
  intro l
  induction l with
  | nil => intro _; rfl
  | cons ch resto ih =>
    intro h
    have hr := ih (fun c hc => h c (List.mem_cons_of_mem ch hc))
    have hch : ch ≠ ' ' := h ch (List.mem_cons_self ch resto)
    simp only [ultimaOcurrencia, hr]
    have : empiezaCon (" (").data (ch :: resto) = false := by
      show empiezaCon [' ', '('] (ch :: resto) = false
      simp [empiezaCon, Ne.symm hch]
    simp [this]

/-- C9: the sidebar label round-trips — for every region name `r` (even
one containing `" ("`) and every count `n`, parsing the label
`f"{r} ({n})"` with `rsplit(" (", 1)[0]` returns exactly `r`, so
filtering records by the parsed selection equals filtering by `r`. -/
theorem etiqueta_region_redondea :
    ∀ (r : String) (n : Nat),
      region_sel_de (etiqueta_region r n) = r
      ∧ ∀ nombres : List String,
          nombres.filter (fun s => s == region_sel_de (etiqueta_region r n)) =
            nombres.filter (fun s => s == r) := by
  intro r n
  have hsep : (" (").data = [' ', '('] := by decide
  have hdata : (etiqueta_region r n).data =
      r.data ++ (' ' :: '(' :: (strNat n ++ [')'])) := by
    show (r ++ " (" ++ String.mk (strNat n) ++ ")").data = _
    rw [String.data_append, String.data_append, String.data_append, hsep]
    simp
  have hnone : ultimaOcurrencia (" (").data ('(' :: (strNat n ++ [')'])) = none := by
    apply ultima_sin_espacio
    intro c hc
    rcases List.mem_cons.mp hc with rfl | hc'
    · decide
    · rcases List.mem_append.mp hc' with h1 | h2
      · exact strNat_sin_espacio n c h1
      · have : c = ')' := by simpa using h2
        subst this
        decide
  have hcola : ultimaOcurrencia (" (").data
      (' ' :: '(' :: (strNat n ++ [')'])) = some 0 := by
    rw [ultima_cons, hnone]
    have hemp : empiezaCon (" (").data
        (' ' :: '(' :: (strNat n ++ [')'])) = true := by
      rw [hsep]
      simp [empiezaCon]
    show (if empiezaCon (" (").data (' ' :: '(' :: (strNat n ++ [')'])) = true
        then some 0 else none) = some 0
    rw [if_pos hemp]
  have hocc : ultimaOcurrencia (" (").data (etiqueta_region r n).data =
      some r.data.length := by
    rw [hdata]
    simpa using ultima_append r.data _ (" (").data 0 hcola
  have hmain : region_sel_de (etiqueta_region r n) = r := by
    rw [region_sel_de, hocc, hdata]
    show String.mk
        ((r.data ++ ' ' :: '(' :: (strNat n ++ [')'])).take r.data.length) = r
    rw [List.take_left]
  exact ⟨hmain, fun nombres => by rw [hmain]⟩

/-- Characters at most U+007F encode as themselves under latin-1. -/
theorem latin1_ascii :
    ∀ cs : List Char, (∀ c ∈ cs, c.toNat ≤ 127) →
      latin1Bytes cs = some (cs.map Char.toNat) := by
  intro cs
  induction cs with
  | nil => intro _; rfl
  | cons c resto ih =>
    intro h
    have hc : c.toNat ≤ 255 := by
      have := h c (List.mem_cons_self c resto)
      omega
    rw [latin1Bytes, if_pos hc,
      ih (fun x hx => h x (List.mem_cons_of_mem c hx))]
    rfl

/-- Bytes at most 0x7F decode as themselves under UTF-8. -/
theorem utf8_ascii :
    ∀ cs : List Char, (∀ c ∈ cs, c.toNat ≤ 127) →
      utf8Decode (cs.map Char.toNat) = some cs := by
  have haux : ∀ cs : List Char, (∀ c ∈ cs, c.toNat ≤ 127) →
      utf8DecodeAux (cs.map Char.toNat).length (cs.map Char.toNat) = some cs := by
    intro cs
    induction cs with
    | nil => intro _; rfl
    | cons c resto ih =>
      intro h
      have hc : c.toNat ≤ 127 := h c (List.mem_cons_self c resto)
      have htail := ih (fun x hx => h x (List.mem_cons_of_mem c hx))
      have hpaso : pasoUtf8 (c.toNat :: List.map Char.toNat resto) =
          some (c.toNat, List.map Char.toNat resto) := by
        simp [pasoUtf8, hc]
      simp only [List.map_cons, List.length_cons, utf8DecodeAux, hpaso,
        htail, Option.map_some', Char.ofNat_toNat]
  intro cs h
  exact haux cs h

/-- C8: text repair never fails (it is a total function) and is the
identity off its repair path — whenever the latin-1 re-encoding or the
UTF-8 re-decoding fails the original text is returned unchanged, every
ASCII text is returned unchanged, and the repair is applied to every
value of the three glosa columns before any grouping or matching. -/
theorem arreglar_tildes_identidad :
    (∀ texto : String,
        (latin1Bytes texto.data = none → arreglar_tildes texto = texto)
        ∧ (∀ bs, latin1Bytes texto.data = some bs → utf8Decode bs = none →
            arreglar_tildes texto = texto)
        ∧ ((∀ c ∈ texto.data, c.toNat ≤ 127) → arreglar_tildes texto = texto))
    ∧ (∀ cols3 fila c, c ∈ cols3 →
        valorDe (limpiarFila cols3 fila) c =
          arreglar_tildes (valorDe fila c)) := by
  constructor
  · intro texto
    refine ⟨?_, ?_, ?_⟩
    · intro h
      simp only [arreglar_tildes, h]
    · intro bs h1 h2
      simp only [arreglar_tildes, h1, h2]
    · intro h
      simp only [arreglar_tildes, latin1_ascii texto.data h,
        utf8_ascii texto.data h]
  · intro cols3 fila c hc
    induction fila with
    | nil =>
      have h1 : valorDe (limpiarFila cols3 []) c = "" := rfl
      have h2 : valorDe [] c = "" := rfl
      rw [h1, h2]
      decide
    | cons p resto ih =>
      by_cases hm : p.1 ∈ cols3 <;> by_cases hpc : (p.1 == c) = true
      · have he : p.1 = c := by simpa using hpc
        simp [valorDe, limpiarFila, List.find?_cons, hpc, hm]
      · have hpc' : (p.1 == c) = false := by simpa using hpc
        have hih : valorDe (limpiarFila cols3 resto) c =
            arreglar_tildes (valorDe resto c) := ih
        simpa [valorDe, limpiarFila, List.find?_cons, hpc', hm] using hih
      · have he : p.1 = c := by simpa using hpc
        rw [he] at hm
        exact absurd hc hm
      · have hpc' : (p.1 == c) = false := by simpa using hpc
        have hih : valorDe (limpiarFila cols3 resto) c =
            arreglar_tildes (valorDe resto c) := ih
        simpa [valorDe, limpiarFila, List.find?_cons, hpc', hm] using hih

/-- Witness for C8: an ASCII text, a latin-1-unencodable text (`"€"`)
and a text whose bytes are not valid UTF-8 (`"é"`) all come back
unchanged, and a cleaned row holds the repaired cell value. -/
theorem arreglar_tildes_identidad_testigo :
    arreglar_tildes "abc" = "abc" ∧
      arreglar_tildes "€" = "€" ∧
      arreglar_tildes "é" = "é" ∧
      valorDe (limpiarFila ["g"] [("g", "abc")]) "g" =
        arreglar_tildes (valorDe [("g", "abc")] "g") :=
  ⟨(arreglar_tildes_identidad.1 "abc").2.2 (by decide),
    (arreglar_tildes_identidad.1 "€").1 (by decide),
    (arreglar_tildes_identidad.1 "é").2.1 [233] (by decide) (by decide),
    arreglar_tildes_identidad.2 ["g"] [("g", "abc")] "g" (by decide)⟩

/-- C6: every fatal gate halts the pipeline with `Except.error` — hence
no `Salida` (no aggregate, chart, map or table) is produced — when the
catalog search fails or reports zero results, when the selected dataset
yields no usable CSV resource URL, and when any of the four mandatory
column roles resolves to the `none` sentinel. -/
theorem pipeline_se_detiene :
    ∀ (resp : RespCatalogo) (t : Tabla) (topn : Nat) (rsel : String),
      ((resp.success = false ∨ resp.count = 0) →
        esError (pipeline resp t topn rsel) = true)
      ∧ ((∀ ds, resp.results.head? = some ds →
            urlFalsa (csvUrlDe ds) = true) →
        esError (pipeline resp t topn rsel) = true)
      ∧ ((buscar_columna (t.columnas.map (fun c => aMinusculas (recortar c)))
            ["regioncodigo"] = none ∨
          buscar_columna (t.columnas.map (fun c => aMinusculas (recortar c)))
            ["regionglosa"] = none ∨
          buscar_columna (t.columnas.map (fun c => aMinusculas (recortar c)))
            ["comunaglosa"] = none ∨
          buscar_columna (t.columnas.map (fun c => aMinusculas (recortar c)))
            ["establecimientoglosa"] = none) →
        esError (pipeline resp t topn rsel) = true) := by
  intro resp t topn rsel
  refine ⟨?_, ?_, ?_⟩
  · intro h
    simp only [pipeline, if_pos h]
    rfl
  · intro h
    by_cases h1 : resp.success = false ∨ resp.count = 0
    · simp only [pipeline, if_pos h1]
      rfl
    · simp only [pipeline, if_neg h1]
      rcases hh : resp.results.head? with _ | ds
      · simp [hh, esError]
      · have hu := h ds hh
        simp [hh, hu, esError]
  · intro h
    by_cases h1 : resp.success = false ∨ resp.count = 0
    · simp only [pipeline, if_pos h1]
      rfl
    · simp only [pipeline, if_neg h1]
      rcases hh : resp.results.head? with _ | ds
      · simp [hh, esError]
      · simp only [hh]
        by_cases hu : urlFalsa (csvUrlDe ds) = true
        · simp [hu, esError]
        · have hu' : urlFalsa (csvUrlDe ds) = false := by
            simpa using hu
          simp only [hu', Bool.false_eq_true, if_false]
          rcases hcod : buscar_columna
              (t.columnas.map (fun c => aMinusculas (recortar c)))
              ["regioncodigo"] with _ | c1 <;>
            rcases hnom : buscar_columna
                (t.columnas.map (fun c => aMinusculas (recortar c)))
                ["regionglosa"] with _ | c2 <;>
            rcases hcom : buscar_columna
                (t.columnas.map (fun c => aMinusculas (recortar c)))
                ["comunaglosa"] with _ | c3 <;>
            rcases hest : buscar_columna
                (t.columnas.map (fun c => aMinusculas (recortar c)))
                ["establecimientoglosa"] with _ | c4 <;>
            simp_all [esError]

/-- Witness for C6: three concrete failing inputs — missing mandatory
columns, a failed catalog search, and a dataset with no CSV resource —
all halt with an error. -/
theorem pipeline_se_detiene_testigo :
    esError (pipeline ⟨true, 1, [⟨[⟨"csv", some "u"⟩]⟩]⟩ ⟨["foo"], []⟩ 5 "x")
        = true ∧
      esError (pipeline ⟨false, 0, []⟩ ⟨[], []⟩ 5 "x") = true ∧
      esError (pipeline ⟨true, 1, [⟨[]⟩]⟩ ⟨[], []⟩ 5 "x") = true :=
  ⟨(pipeline_se_detiene ⟨true, 1, [⟨[⟨"csv", some "u"⟩]⟩]⟩ ⟨["foo"], []⟩ 5
        "x").2.2 (Or.inl (by decide)),
    (pipeline_se_detiene ⟨false, 0, []⟩ ⟨[], []⟩ 5 "x").1 (Or.inl rfl),
    (pipeline_se_detiene ⟨true, 1, [⟨[]⟩]⟩ ⟨[], []⟩ 5 "x").2.1
      (by
        intro ds hds
        have hd : (⟨[]⟩ : Dataset) = ds := by simpa using hds
        rw [← hd]
        decide)⟩
